import Mathlib

/-!
# Verification of the web-explorer browser-automation agent

Shallow embedding of the parts of the repository that the specification's
claims are about:

* `app/files.py` (`FileUtils`): word wrapping, frame composition and the
  history-to-media pipeline, JSON file persistence;
* `app/operator/browser_agent/main.py` (`BrowserAgent.run`): the Worker;
* `app/operator/graph.py` (`supervisor`): the routing/cleanup node.

Images, fonts and browser processes are external collaborators; they are
modelled as opaque tokens (base64 strings, abstract width metrics, numbered
handles).  Python exceptions are modelled with `Except PyErr`; a Python
`try/except Exception` block is the corresponding `match` on the body's
result.
-/

namespace WebExplorer

/-- Python exception values that the embedded code can raise. -/
inductive PyErr where
  | indexError
  | attributeError
  | valueError (msg : String)
  | imageError
  deriving Repr, DecidableEq

/-! ## Word wrapping (`FileUtils._wrap_text`, files.py lines 84-103)

A font is modelled by its text-extent metric: `font s` is `font.getbbox(s)[2]`,
the rendered pixel width of the string `s`. -/

/-- The rendering font's text-extent metric (`font.getbbox(line)[2]`). -/
abbrev FontMetric := String → Nat

/-- Python `" ".join(ws)`. -/
def joinWords (ws : List String) : String := String.intercalate " " ws

/-- Splitter loop for `pySplitWhite`: `acc` holds the current word reversed. -/
def splitWhiteAux : List Char → List Char → List String
  | [], acc => if acc = [] then [] else [String.mk acc.reverse]
  | c :: cs, acc =>
    if c.isWhitespace then
      (if acc = [] then [] else [String.mk acc.reverse]) ++ splitWhiteAux cs []
    else splitWhiteAux cs (c :: acc)

/-- Python `text.split()`: split on whitespace runs, dropping empty pieces. -/
def pySplitWhite (text : String) : List String :=
  splitWhiteAux text.data []

/-- One iteration of the `for word in words` loop of `FileUtils._wrap_text`.
The state is `(lines, current_line)`; the word is appended, and the line is
flushed when the joined current line exceeds `max_width` — a single too-long
word is emitted on its own. -/
def wrapStep (font : FontMetric) (max_width : Nat)
    (st : List String × List String) (word : String) : List String × List String :=
  let lines := st.1
  let current_line := st.2 ++ [word]
  if font (joinWords current_line) > max_width then
    if current_line.length = 1 then
      (lines ++ [word], [])
    else
      (lines ++ [joinWords st.2], [word])
  else
    (lines, current_line)

/-- The loop of `FileUtils._wrap_text` over a word list, including the final
`if current_line: lines.append(...)` flush. -/
def wrapLines (font : FontMetric) (max_width : Nat) (words : List String) : List String :=
  let st := words.foldl (wrapStep font max_width) ([], [])
  if st.2 = [] then st.1 else st.1 ++ [joinWords st.2]

/-- Embeds `FileUtils._wrap_text`: wrap `text` to fit within `max_width`, returning
the lines joined by newlines. -/
def wrap_text (text : String) (font : FontMetric) (max_width : Nat) : String :=
  String.intercalate "\n" (wrapLines font max_width (pySplitWhite text))

/-- Modelled from the spec's words (word-wrap description, spec §4.3 item 4):
greedily accumulate words per line; a line is flushed the moment adding the
next word would exceed the max pixel width; a single too-long word is placed
alone on its own line rather than split.  Returns the word groups of each
line; compared against `wrapLines` for the refinement claim. -/
def specGreedyGroups (font : FontMetric) (max_width : Nat) :
    List String → List String → List (List String)
  | acc, [] => if acc = [] then [] else [acc]
  | acc, w :: ws =>
    if font (joinWords (acc ++ [w])) ≤ max_width then
      specGreedyGroups font max_width (acc ++ [w]) ws
    else if acc = [] then
      [w] :: specGreedyGroups font max_width [] ws
    else
      acc :: specGreedyGroups font max_width [w] ws

/-! ## Agent history and frames (`files.py`, `browser_use` views)

Screenshots are base64 strings; an empty string stands for data that
`PIL.Image.open` cannot decode (`b""`), every non-empty string for a valid
image.  Python truthiness of `item.state.screenshot` is `truthyShot`. -/

/-- The `model_output.current_state` of a history entry: carries the step intent. -/
structure AgentBrain where
  next_goal : Option String
  deriving Repr, DecidableEq

/-- One action result of a history entry (`item.result[i]`). -/
structure ActionResult where
  error : Option String
  deriving Repr, DecidableEq

/-- The `item.state` of a history entry: carries the screenshot. -/
structure HistoryStepState where
  screenshot : Option String
  deriving Repr, DecidableEq

/-- One entry of the agent's action history. -/
structure AgentHistoryItem where
  state : HistoryStepState
  model_output : Option AgentBrain
  result : List ActionResult
  deriving Repr, DecidableEq

/-- The `AgentHistoryList` from `browser_use`: the recorded run. -/
structure AgentHistoryList where
  history : List AgentHistoryItem
  deriving Repr, DecidableEq

/-- Python truthiness of an optional screenshot string (`None` and `""` are
falsy). -/
def truthyShot : Option String → Bool
  | some s => s ≠ ""
  | none => false

/-- Python `x or ""` on an optional screenshot. -/
def shotOrEmpty : Option String → String
  | some s => s
  | none => ""

/-- Opaque model of a PIL image as produced by the composition pipeline. -/
inductive PImage where
  /-- Result of `Image.open` on a decoded base64 screenshot. -/
  | decoded (base64 : String)
  /-- Result of `FileUtils._create_frame`: black background with centred wrapped text,
  sized from the template screenshot. -/
  | composedText (text : String) (template : String)
  /-- Result of `FileUtils._add_overlay_to_image`: step-number badge and goal banner. -/
  | withOverlay (base : PImage) (step_number : Nat) (goal_text : String)
  deriving Repr, DecidableEq

/-- Embeds `FileUtils._create_frame` (files.py lines 105-149).  `Image.open` raises on
undecodable (empty) screenshot bytes; otherwise the frame is composed. -/
def create_frame (text : String) (screenshot : String) : Except PyErr PImage :=
  if screenshot = "" then .error .imageError
  else .ok (.composedText text screenshot)

/-- The frame a history entry contributes at position `i` (files.py lines
363-374): the decoded screenshot, overlaid with step number and goal when the
entry carries a `model_output`. -/
def stepImageOf (i : Nat) (item : AgentHistoryItem) : PImage :=
  let image := PImage.decoded (shotOrEmpty item.state.screenshot)
  match item.model_output with
  | some mo => PImage.withOverlay image i (mo.next_goal.getD "")
  | none => image

/-- The `for i, item in enumerate(history_list.history, 1)` loop of
`create_media_from_history_list` (files.py lines 360-374): entries without a
truthy screenshot are skipped (the counter still advances). -/
def stepFrames (i : Nat) : List AgentHistoryItem → List PImage
  | [] => []
  | item :: rest =>
    if truthyShot item.state.screenshot then
      stepImageOf i item :: stepFrames (i + 1) rest
    else
      stepFrames (i + 1) rest

/-- The `for screenshot in screenshots_to_append` loop (files.py lines
375-386): each extra screenshot becomes a text-less composed frame. -/
def extraFrames : List String → Except PyErr (List PImage)
  | [] => .ok []
  | s :: rest => do
    let f ← create_frame "" s
    let fs ← extraFrames rest
    .ok (f :: fs)

/-- The `GIFParams` dictionary after merging caller overrides over the defaults (files.py
lines 328-339).  `line_spacing` is a float used only inside pixel geometry and
is not represented. -/
structure GIFParamsM where
  duration : Nat := 5000
  regular_font_size : Nat := 17
  title_font_size : Nat := 22
  goal_font_size : Nat := 17
  margin : Nat := 10
  title_text : String := "Task Run"
  use_logo : Bool := false
  deriving Repr, DecidableEq

/-- Caller-supplied `GIFParams` overrides (a partial dictionary). -/
structure GIFParamsUpdate where
  duration : Option Nat := none
  regular_font_size : Option Nat := none
  title_font_size : Option Nat := none
  goal_font_size : Option Nat := none
  margin : Option Nat := none
  title_text : Option String := none
  use_logo : Option Bool := none
  deriving Repr, DecidableEq

/-- Python `gif_params.update(params)`: field-wise override of the defaults. -/
def mergeParams (p : GIFParamsUpdate) : GIFParamsM :=
  { duration := p.duration.getD 5000
    regular_font_size := p.regular_font_size.getD 17
    title_font_size := p.title_font_size.getD 22
    goal_font_size := p.goal_font_size.getD 17
    margin := p.margin.getD 10
    title_text := p.title_text.getD "Task Run"
    use_logo := p.use_logo.getD false }

/-- The media dictionary `HistoryMedia(gif=..., mp4=...)` (files.py lines
35-38), as the association list a Python `TypedDict` value is built from. -/
def HistoryMedia := List (String × Option String)

instance : DecidableEq HistoryMedia := by
  unfold HistoryMedia
  infer_instance

/-- Build `HistoryMedia(gif=gif_path, mp4=video_path)`. -/
def mkHistoryMedia (gif_path video_path : Option String) : HistoryMedia :=
  [("gif", gif_path), ("mp4", video_path)]

/-- Python `dict.get(key)`: `None` when the key is absent, the stored value
(itself possibly `None`) when present. -/
def dictGet (m : HistoryMedia) (key : String) : Option String :=
  match List.lookup key m with
  | some v => v
  | none => none

/-- Embeds `FileUtils.create_gif_from_images` (files.py lines 299-314): `images[0]`
raises on an empty list, otherwise the GIF is written at `output_path`. -/
def create_gif_from_images (images : List PImage) (output_path : String)
    (duration : Nat) : Except PyErr String :=
  match images with
  | [] => .error .indexError
  | _ :: _ => .ok output_path

/-- Embeds `FileUtils.create_video_from_images` (files.py lines 271-297): the body is
wrapped in `try/except` returning `None`; an empty image list returns `None`
after a warning. -/
def create_video_from_images (images : List PImage) (output_path : String)
    (fps : Nat) : Option String :=
  match images with
  | [] => none
  | _ :: _ => some output_path

/-- The image list composed by `create_media_from_history_list` (files.py
lines 350-386): one title frame from the first entry's screenshot (`or ""`),
one frame per history entry with a truthy screenshot, then the appended
screenshots. -/
def composed_frames (title_text : String) (history_list : AgentHistoryList)
    (screenshots_to_append : List String) : Except PyErr (List PImage) := do
  let first ← match history_list.history with
    | [] => .error PyErr.indexError
    | h :: _ => .ok h
  let title_frame ← create_frame title_text (shotOrEmpty first.state.screenshot)
  let extras ← extraFrames screenshots_to_append
  .ok (title_frame :: stepFrames 1 history_list.history ++ extras)

/-- The `try` body of `create_media_from_history_list` (files.py lines
327-399): compose the frames, then encode the requested formats.  Falls off
the end (returning `None`) only when the image list is empty, which cannot
happen past the title frame. -/
def create_media_body (history_list : AgentHistoryList)
    (screenshots_to_append : List String) (filename : String)
    (output_format : List String) (params : GIFParamsUpdate) :
    Except PyErr (Option HistoryMedia) := do
  let images ← composed_frames (mergeParams params).title_text history_list
    screenshots_to_append
  match images with
  | [] => .ok none
  | _ :: _ => do
    let gif_path ← if "gif" ∈ output_format then
        (create_gif_from_images images (filename ++ ".gif")
          (mergeParams params).duration).map some
      else .ok none
    let video_path := if "mp4" ∈ output_format then
        create_video_from_images images (filename ++ ".mp4") 1
      else none
    .ok (some (mkHistoryMedia gif_path video_path))

/-- Embeds `FileUtils.create_media_from_history_list` (files.py lines 316-402): the
body under `try`, with `except Exception` logging and returning `None`.  The
`Except` layer of the result records whether the call itself raises. -/
def create_media_from_history_list (history_list : AgentHistoryList)
    (screenshots_to_append : List String) (filename : String)
    (output_format : List String) (params : GIFParamsUpdate) :
    Except PyErr (Option HistoryMedia) :=
  match create_media_body history_list screenshots_to_append filename
      output_format params with
  | .ok o => .ok o
  | .error _ => .ok none

/-! ## The Worker (`BrowserAgent.run`, browser_agent/main.py lines 99-159)

External collaborators (the browser process, the LLM-driven step loop, the
cookie file) are injected through `RunEnv`.  Browser and page-context handles
are numbered so that identity and creation can be observed. -/

/-- A browser process handle. -/
structure Browser where
  id : Nat
  deriving Repr, DecidableEq

/-- A page-context handle (`BrowserContext`), owning its browser. -/
structure BrowserContext where
  id : Nat
  browser : Browser
  deriving Repr, DecidableEq

/-- The `BrowserAgentOutput` record (browser_agent/main.py lines 16-24). -/
structure BrowserAgentOutput where
  agent_history_gif_url : Option String
  agent_history_gif_video_url : Option String
  agent_history_video_recording_url : Option String
  agent_cookies : Option (List (List (String × String)))
  image_url : Option String
  message : Option String
  error : Option String
  browser_context : Option BrowserContext
  last_page_image : Option String
  deriving Repr, DecidableEq

/-- What the external collaborators of one `BrowserAgent.run` invocation
return: the step loop's recorded history (`agent.run()`), the parsed cookie
file (already through `read_json_file`'s own `try/except`), and the two page
screenshots taken after the loop. -/
structure RunEnv where
  agent_history : AgentHistoryList
  cookie_file : Option (List (List (String × String)))
  final_result : Option String
  media_screenshot : String
  last_screenshot : String
  deriving Repr, DecidableEq

/-- Handles created during one run. -/
structure RunTrace where
  browsers_created : List Browser
  contexts_created : List BrowserContext
  deriving Repr, DecidableEq

/-- Embeds `FileUtils.encode_image_to_base64`; image bytes are opaque tokens, so the
encoding is the identity on them. -/
def encode_image_to_base64 (image : String) : String := image

/-- Evaluates `agent_history.history[-1].result[-1].error` (browser_agent/main.py line
138): raises `IndexError` on an empty history or an empty result list. -/
def lastResultError (h : AgentHistoryList) : Except PyErr (Option String) :=
  match h.history.getLast? with
  | none => .error .indexError
  | some item =>
    match item.result.getLast? with
    | none => .error .indexError
    | some r => .ok r.error

/-- Python attribute access `media.get(key)` on a `HistoryMedia | None` value:
`None.get` raises `AttributeError`. -/
def optionalDictGet (m : Option HistoryMedia) (key : String) :
    Except PyErr (Option String) :=
  match m with
  | none => .error .attributeError
  | some d => .ok (dictGet d key)

/-- Embeds `BrowserAgent._create_history_media` (browser_agent/main.py lines 66-82):
screenshot the current page and render the history with it appended, in
formats `["mp4", "gif"]` and the run title as title text.  (The
uninitialized-agent guard cannot fire inside `run`, which sets `self.agent`
first.) -/
def create_history_media (env : RunEnv) (title : String) (filename : String) :
    Except PyErr (Option HistoryMedia) :=
  create_media_from_history_list env.agent_history
    [encode_image_to_base64 env.media_screenshot] filename ["mp4", "gif"]
    { title_text := some title }

/-- The `try` body of `BrowserAgent.run` (browser_agent/main.py lines
107-150): session setup, step loop, cookie read-back, media rendering and
output assembly.  The `except Exception` handler logs and re-raises, so the
function's raising behaviour is the body's. -/
def BrowserAgent.run (env : RunEnv) (title : String) (filename : String)
    (browser_context : Option BrowserContext) (fresh : Nat) :
    Except PyErr BrowserAgentOutput × RunTrace :=
  let browser : Browser :=
    match browser_context with
    | some c => c.browser
    | none => { id := fresh }
  let context : BrowserContext :=
    match browser_context with
    | some c => c
    | none => { id := fresh, browser := browser }
  let trace : RunTrace :=
    match browser_context with
    | some _ => { browsers_created := [], contexts_created := [] }
    | none => { browsers_created := [browser], contexts_created := [context] }
  let result : Except PyErr BrowserAgentOutput := do
    let agent_history := env.agent_history
    let agent_cookies := env.cookie_file
    let agent_history_media ← create_history_media env title filename
    let output_message := env.final_result
    let error ← lastResultError agent_history
    let screenshot := env.last_screenshot
    let gif_url ← optionalDictGet agent_history_media "gif_url"
    let gif_video_url ← optionalDictGet agent_history_media "gif_video_url"
    let video_recording_url ← optionalDictGet agent_history_media "video_recording_url"
    let screenshot_url ← optionalDictGet agent_history_media "screenshot_url"
    .ok
      { agent_history_gif_url := gif_url
        agent_history_gif_video_url := gif_video_url
        agent_history_video_recording_url := video_recording_url
        message := output_message
        error := error
        image_url := screenshot_url
        agent_cookies := agent_cookies
        last_page_image := some (encode_image_to_base64 screenshot)
        browser_context := some context }
  (result, trace)

/-! ## The Supervisor (`graph.py` lines 20-59)

The routing LLM is injected as an oracle from the presented message list to
the value under the `next` key of its structured response.  Whether the two
close calls inside the `FINISH` cleanup raise is injected through
`CloseEnv`. -/

/-- A conversation message as held in `state["messages"]`. -/
structure ChatMessage where
  role : String
  content : String
  name : Option String := none
  deriving Repr, DecidableEq

/-- The `BrowserState` record (operator/state.py): the graph's shared session state. -/
structure BrowserState where
  messages : List ChatMessage
  browser_context : Option BrowserContext
  image : Option String
  title : String
  prompt : String
  authentication_instruction : String
  act_instruction : String
  next : String
  deriving Repr, DecidableEq

/-- The fixed supervisor system prompt (graph.py lines 23-30). -/
def base_system_prompt : String :=
  "You are a supervisor tasked with managing a conversation between the"
  ++ " following workers: ['authenticate', 'act'], to achieve a goal."
  ++ " Given the following user request,"
  ++ " respond with the worker to act next. Each worker will perform a"
  ++ " task and respond with their results and status. When finished,"
  ++ " respond with FINISH."

/-- The legal values of the routing response's `next` field
(`options = [*workers, "FINISH"]`, graph.py lines 20 and 32). -/
def routerOptions : List String := ["authenticate", "act", "FINISH"]

/-- The message list the Supervisor presents to the routing capability
(graph.py line 45): the fixed system prompt prepended to the conversation. -/
def routing_input (state : BrowserState) : List ChatMessage :=
  { role := "system", content := base_system_prompt } :: state.messages

/-- The routing capability: maps the presented messages to the `next` value of
its structured response. -/
abbrev RouterOracle := List ChatMessage → String

/-- Whether each close call of the `FINISH` cleanup raises. -/
structure CloseEnv where
  context_close_fails : Bool
  browser_close_fails : Bool
  deriving Repr, DecidableEq

/-- A `langgraph` goto target: a named node or the `END` sentinel. -/
inductive Goto where
  | node (name : String)
  | END
  deriving Repr, DecidableEq

/-- Observable outcome of one `supervisor` invocation: the returned command,
the close attempts made on the session, and the log records emitted. -/
structure SupervisorResult where
  goto : Goto
  update_next : Goto
  context_close_calls : Nat
  browser_close_calls : Nat
  logs : List String
  deriving Repr, DecidableEq

/-- The `supervisor` node (graph.py lines 44-59): ask the routing capability
for the next worker over the system prompt plus conversation; on `FINISH`
close the session (if any) inside `try/except` that only logs, then go to
`END`; any other value is forwarded unchanged as the goto target. -/
def supervisor (oracle : RouterOracle) (close_env : CloseEnv)
    (state : BrowserState) : SupervisorResult :=
  let messages := routing_input state
  let response_next := oracle messages
  if response_next = "FINISH" then
    match state.browser_context with
    | some _ =>
      let browser_close_calls := if close_env.context_close_fails then 0 else 1
      let close_failed :=
        close_env.context_close_fails
          || (!close_env.context_close_fails && close_env.browser_close_fails)
      let logs := if close_failed then ["Error closing browser"] else []
      { goto := .END, update_next := .END, context_close_calls := 1,
        browser_close_calls := browser_close_calls, logs := logs }
    | none =>
      { goto := .END, update_next := .END, context_close_calls := 0,
        browser_close_calls := 0, logs := [] }
  else
    { goto := .node response_next, update_next := .node response_next,
      context_close_calls := 0, browser_close_calls := 0, logs := [] }

/-! ## JSON persistence (`FileUtils.write_data_to_file` / `read_json_file`)

`write_data_to_file` serialises with `json.dumps` and `read_json_file` parses
with `json.loads` (files.py lines 404-412, 427-431).  The two library calls
are modelled concretely over the JSON value grammar the repository writes:
null, booleans, integers, strings, arrays and objects.  `dumps` uses the
Python default separators `", "` and `": "` and escapes `"` and `\` in
strings (the `\uXXXX` escapes Python additionally applies to control and
non-ASCII characters only change the wire format, not the round-trip);
float literals are outside the embedding.  `loads` is modelled on the
grammar `dumps` emits. -/

mutual
/-- A JSON value. -/
inductive JVal where
  | null
  | bool (b : Bool)
  | num (n : Int)
  | str (s : String)
  | arr (xs : JArr)
  | obj (xs : JObj)
/-- The element list of a JSON array. -/
inductive JArr where
  | nil
  | cons (hd : JVal) (tl : JArr)
/-- The key-value list of a JSON object (insertion order). -/
inductive JObj where
  | nil
  | cons (key : String) (val : JVal) (tl : JObj)
end

/-- The decimal digit character of `d < 10`. -/
def digitChar (d : Nat) : Char := Char.ofNat (48 + d)

/-- The numeric value of a digit character. -/
def digitVal (c : Char) : Nat := c.toNat - 48

/-- Decimal digits of a natural number, most significant first. -/
def dumpNat (n : Nat) : List Char :=
  if _h : n < 10 then [digitChar n]
  else dumpNat (n / 10) ++ [digitChar (n % 10)]
decreasing_by omega

/-- JSON integer literal. -/
def dumpInt (n : Int) : List Char :=
  if n < 0 then '-' :: dumpNat (-n).toNat else dumpNat n.toNat

/-- String escaping of `json.dumps`: `"` and `\` get a backslash. -/
def escChar (c : Char) : List Char :=
  if c = '"' ∨ c = '\\' then ['\\', c] else [c]

/-- Escape a character list. -/
def escapeChars : List Char → List Char
  | [] => []
  | c :: cs => escChar c ++ escapeChars cs

/-- JSON string literal. -/
def dumpStr (s : String) : List Char := '"' :: (escapeChars s.data ++ ['"'])

mutual
/-- Serialise a JSON value (`json.dumps` with default separators). -/
def dumpVal : JVal → List Char
  | .null => "null".data
  | .bool true => "true".data
  | .bool false => "false".data
  | .num n => dumpInt n
  | .str s => dumpStr s
  | .arr xs => '[' :: (dumpArrBody xs ++ [']'])
  | .obj xs => '\x7b' :: (dumpObjBody xs ++ ['\x7d'])
/-- Array elements, `", "`-separated. -/
def dumpArrBody : JArr → List Char
  | .nil => []
  | .cons v tl => dumpVal v ++ dumpArrTail tl
/-- Remaining array elements after the first. -/
def dumpArrTail : JArr → List Char
  | .nil => []
  | .cons v tl => ',' :: ' ' :: (dumpVal v ++ dumpArrTail tl)
/-- Object entries, `", "`-separated, `": "` after each key. -/
def dumpObjBody : JObj → List Char
  | .nil => []
  | .cons k v tl => dumpStr k ++ ':' :: ' ' :: (dumpVal v ++ dumpObjTail tl)
/-- Remaining object entries after the first. -/
def dumpObjTail : JObj → List Char
  | .nil => []
  | .cons k v tl => ',' :: ' ' :: (dumpStr k ++ ':' :: ' ' :: (dumpVal v ++ dumpObjTail tl))
end

/-- Parse the body of a string literal (after the opening quote), undoing
`escChar`. -/
def parseStrAux : List Char → Option (List Char × List Char)
  | [] => none
  | c :: cs =>
    if c = '"' then some ([], cs)
    else if c = '\\' then
      match cs with
      | [] => none
      | e :: cs2 =>
        if e = '"' ∨ e = '\\' then
          match parseStrAux cs2 with
          | some (s, r) => some (e :: s, r)
          | none => none
        else none
    else
      match parseStrAux cs with
      | some (s, r) => some (c :: s, r)
      | none => none

/-- Parse a run of decimal digits. -/
def parseNat (cs : List Char) : Option (Nat × List Char) :=
  let ds := cs.takeWhile (fun c => c.isDigit)
  if ds = [] then none
  else some (ds.foldl (fun a c => a * 10 + digitVal c) 0, cs.drop ds.length)

/-- Parse an optionally-signed integer literal into a `JVal.num`. -/
def parseIntOpt (cs : List Char) : Option (JVal × List Char) :=
  if cs.head? = some '-' then
    match parseNat cs.tail with
    | some (n, r) => some (.num (-(n : Int)), r)
    | none => none
  else
    match parseNat cs with
    | some (n, r) => some (.num (n : Int), r)
    | none => none

/-- Parse a key string literal (opening quote included). -/
def parseKeyStr (cs : List Char) : Option (String × List Char) :=
  if cs.head? = some '"' then
    match parseStrAux cs.tail with
    | some (s, r) => some (String.mk s, r)
    | none => none
  else none

/-- Expect the `": "` separator. -/
def parseColonSp (cs : List Char) : Option (List Char) :=
  if cs.take 2 = [':', ' '] then some (cs.drop 2) else none

mutual
/-- Parse one JSON value; `fuel` bounds the nesting depth. -/
def parseVal : Nat → List Char → Option (JVal × List Char)
  | 0, _ => none
  | fuel + 1, cs =>
    if cs.take 4 = "null".data then some (.null, cs.drop 4)
    else if cs.take 4 = "true".data then some (.bool true, cs.drop 4)
    else if cs.take 5 = "false".data then some (.bool false, cs.drop 5)
    else
      match cs with
      | [] => none
      | c :: rest =>
        if c = '"' then
          match parseStrAux rest with
          | some (s, r) => some (.str (String.mk s), r)
          | none => none
        else if c = '[' then
          match parseArrBody fuel rest with
          | some (xs, r) => some (.arr xs, r)
          | none => none
        else if c = '\x7b' then
          match parseObjBody fuel rest with
          | some (xs, r) => some (.obj xs, r)
          | none => none
        else parseIntOpt cs
/-- Parse array elements up to the closing bracket. -/
def parseArrBody : Nat → List Char → Option (JArr × List Char)
  | 0, _ => none
  | fuel + 1, cs =>
    if cs.head? = some ']' then some (.nil, cs.tail)
    else
      match parseVal fuel cs with
      | some (v, r) =>
        match parseArrTail fuel r with
        | some (tl, r2) => some (.cons v tl, r2)
        | none => none
      | none => none
/-- Parse `", "`-led further array elements up to the closing bracket. -/
def parseArrTail : Nat → List Char → Option (JArr × List Char)
  | 0, _ => none
  | fuel + 1, cs =>
    if cs.head? = some ']' then some (.nil, cs.tail)
    else if cs.take 2 = [',', ' '] then
      match parseVal fuel (cs.drop 2) with
      | some (v, r) =>
        match parseArrTail fuel r with
        | some (tl, r2) => some (.cons v tl, r2)
        | none => none
      | none => none
    else none
/-- Parse object entries up to the closing brace. -/
def parseObjBody : Nat → List Char → Option (JObj × List Char)
  | 0, _ => none
  | fuel + 1, cs =>
    if cs.head? = some '\x7d' then some (.nil, cs.tail)
    else
      match parseKeyStr cs with
      | some (k, r) =>
        match parseColonSp r with
        | some r2 =>
          match parseVal fuel r2 with
          | some (v, r3) =>
            match parseObjTail fuel r3 with
            | some (tl, r4) => some (.cons k v tl, r4)
            | none => none
          | none => none
        | none => none
      | none => none
/-- Parse `", "`-led further object entries up to the closing brace. -/
def parseObjTail : Nat → List Char → Option (JObj × List Char)
  | 0, _ => none
  | fuel + 1, cs =>
    if cs.head? = some '\x7d' then some (.nil, cs.tail)
    else if cs.take 2 = [',', ' '] then
      match parseKeyStr (cs.drop 2) with
      | some (k, r) =>
        match parseColonSp r with
        | some r2 =>
          match parseVal fuel r2 with
          | some (v, r3) =>
            match parseObjTail fuel r3 with
            | some (tl, r4) => some (.cons k v tl, r4)
            | none => none
          | none => none
        | none => none
      | none => none
    else none
end

/-- Python `json.dumps(data)`. -/
def dumps (v : JVal) : String := String.mk (dumpVal v)

/-- Python `json.loads(s)` on the grammar `dumps` emits: the whole input must be one
value; anything else is a parse error (an exception in Python, `none` here). -/
def loads (s : String) : Option JVal :=
  match parseVal (s.data.length + 1) s.data with
  | some (v, []) => some v
  | _ => none

/-- The input after a serialised number must not continue with a digit (it
never does: a separator, a closing bracket or the end follows). -/
def headNotDigit (cs : List Char) : Prop :=
  ∀ c, cs.head? = some c → c.isDigit = false

mutual
/-- Fuel needed by `parseVal` to parse the serialisation of a value. -/
def sizeV : JVal → Nat
  | .null => 1
  | .bool _ => 1
  | .num _ => 1
  | .str _ => 1
  | .arr xs => 1 + sizeA xs
  | .obj xs => 1 + sizeO xs
/-- Fuel needed by `parseArrBody`/`parseArrTail` on an element list. -/
def sizeA : JArr → Nat
  | .nil => 1
  | .cons v tl => 1 + max (sizeV v) (sizeA tl)
/-- Fuel needed by `parseObjBody`/`parseObjTail` on an entry list. -/
def sizeO : JObj → Nat
  | .nil => 1
  | .cons _ v tl => 1 + max (sizeV v) (sizeO tl)
end

/-- The file system as a map from paths to text contents. -/
def FileSys := String → Option String

/-- Embeds `FileUtils.write_data_to_file` (files.py lines 427-431): serialise and
overwrite the file at `path`. -/
def write_data_to_file (path : String) (data : JVal) (fs : FileSys) : FileSys :=
  fun p => if p = path then some (dumps data) else fs p

/-- Embeds `FileUtils.read_json_file` (files.py lines 404-412): parse the file if it
exists; a missing file or any parse failure yields `None` (the `except`
handler logs and falls through). -/
def read_json_file (path : String) (fs : FileSys) : Option JVal :=
  match fs path with
  | some content => loads content
  | none => none

/-! ## Word-wrap theorems -/

theorem intercalate_singleton (sep w : String) : String.intercalate sep [w] = w := by
  cases w with
  | mk data => rfl

theorem joinWords_singleton (w : String) : joinWords [w] = w :=
  intercalate_singleton " " w

theorem wrapLines_eq_spec_aux (font : FontMetric) (max_width : Nat)
    (ws : List String) : ∀ acc lines : List String,
    (let st := List.foldl (wrapStep font max_width) (lines, acc) ws
     if st.2 = [] then st.1 else st.1 ++ [joinWords st.2])
      = lines ++ (specGreedyGroups font max_width acc ws).map joinWords := by
  induction ws with
  | nil =>
    intro acc lines
    by_cases h : acc = [] <;> simp [specGreedyGroups, h]
  | cons w ws ih =>
    intro acc lines
    simp only [List.foldl_cons]
    by_cases hfit : font (joinWords (acc ++ [w])) ≤ max_width
    · have hstep : wrapStep font max_width (lines, acc) w = (lines, acc ++ [w]) := by
        simp [wrapStep, Nat.not_lt.mpr hfit]
      rw [hstep, ih]
      simp [specGreedyGroups, hfit]
    · have hgt : max_width < font (joinWords (acc ++ [w])) := Nat.lt_of_not_le hfit
      by_cases hacc : acc = []
      · subst hacc
        rw [List.nil_append, joinWords_singleton] at hfit hgt
        have hstep : wrapStep font max_width (lines, []) w = (lines ++ [w], []) := by
          simp [wrapStep, joinWords_singleton, hgt]
        rw [hstep, ih]
        simp [specGreedyGroups, hfit, joinWords_singleton]
      · have hstep : wrapStep font max_width (lines, acc) w
            = (lines ++ [joinWords acc], [w]) := by
          simp [wrapStep, hgt, hacc]
        rw [hstep, ih]
        simp [specGreedyGroups, hfit, hacc]


theorem wrapLines_eq_spec (font : FontMetric) (max_width : Nat) (ws : List String) :
    wrapLines font max_width ws
      = (specGreedyGroups font max_width [] ws).map joinWords := by
  have h := wrapLines_eq_spec_aux font max_width ws [] []
  simpa [wrapLines] using h

theorem specGreedyGroups_flatten (font : FontMetric) (max_width : Nat)
    (ws : List String) : ∀ acc : List String,
    (specGreedyGroups font max_width acc ws).flatten = acc ++ ws := by
  induction ws with
  | nil =>
    intro acc
    by_cases h : acc = [] <;> simp [specGreedyGroups, h]
  | cons w ws ih =>
    intro acc
    by_cases hfit : font (joinWords (acc ++ [w])) ≤ max_width
    · simp [specGreedyGroups, hfit, ih]
    · by_cases hacc : acc = []
      · subst hacc
        rw [List.nil_append] at hfit
        simp [specGreedyGroups, hfit, ih]
      · simp [specGreedyGroups, hfit, hacc, ih]

theorem specGreedyGroups_fit (font : FontMetric) (max_width : Nat)
    (ws : List String) : ∀ acc : List String,
    (2 ≤ acc.length → font (joinWords acc) ≤ max_width) →
    ∀ g ∈ specGreedyGroups font max_width acc ws,
      2 ≤ g.length → font (joinWords g) ≤ max_width := by
  induction ws with
  | nil =>
    intro acc hacc g hg
    by_cases h : acc = []
    · simp [specGreedyGroups, h] at hg
    · simp [specGreedyGroups, h] at hg
      subst hg
      exact hacc
  | cons w ws ih =>
    intro acc hacc g hg
    by_cases hfit : font (joinWords (acc ++ [w])) ≤ max_width
    · simp only [specGreedyGroups, if_pos hfit] at hg
      exact ih (acc ++ [w]) (fun _ => hfit) g hg
    · by_cases haccnil : acc = []
      · subst haccnil
        simp only [specGreedyGroups, if_neg hfit, if_pos rfl] at hg
        rcases List.mem_cons.mp hg with h1 | h1
        · subst h1
          intro hlen
          simp at hlen
        · exact ih [] (by intro h; simp at h) g h1
      · simp only [specGreedyGroups, if_neg hfit, if_neg haccnil] at hg
        rcases List.mem_cons.mp hg with h1 | h1
        · subst h1
          exact hacc
        · exact ih [w] (by intro h; simp at h) g h1

/-- C7: the word-wrap function is the spec's greedy accumulation — it flushes
a line the moment adding the next word would exceed `max_width`, it never
splits or drops a word (the wrapped groups flatten back to the input words in
order), every multi-word line fits within `max_width` (only a single too-long
word may exceed it, alone on its line), and an input consisting of one word
wider than `max_width` is returned as exactly that word on one line. -/
theorem C7_wrap_text_greedy (text : String) (font : FontMetric) (max_width : Nat) :
    wrapLines font max_width (pySplitWhite text)
        = (specGreedyGroups font max_width [] (pySplitWhite text)).map joinWords
      ∧ (specGreedyGroups font max_width [] (pySplitWhite text)).flatten
          = pySplitWhite text
      ∧ (∀ g ∈ specGreedyGroups font max_width [] (pySplitWhite text),
          2 ≤ g.length → font (joinWords g) ≤ max_width)
      ∧ (∀ w, pySplitWhite text = [w] → max_width < font w →
          wrap_text text font max_width = w) := by
  refine ⟨wrapLines_eq_spec font max_width (pySplitWhite text),
    by simpa using specGreedyGroups_flatten font max_width (pySplitWhite text) [],
    specGreedyGroups_fit font max_width (pySplitWhite text) []
      (by intro h; simp at h), ?_⟩
  intro w hw hfont
  have hns : ¬ font (joinWords ([] ++ [w])) ≤ max_width := by
    rw [List.nil_append, joinWords_singleton]
    exact Nat.not_le.mpr hfont
  have hgroups : specGreedyGroups font max_width [] [w] = [[w]] := by
    simp [specGreedyGroups, hns]
  rw [wrap_text, hw, wrapLines_eq_spec, hgroups]
  simp [joinWords_singleton, intercalate_singleton]

/-- Witness for C7: one word of width 12 against `max_width = 3` comes back
unsplit on a single line. -/
theorem C7_wrap_text_greedy_witness :
    wrap_text "verylongword" (fun s => s.length) 3 = "verylongword" :=
  (C7_wrap_text_greedy "verylongword" (fun s => s.length) 3).2.2.2 "verylongword"
    (by decide) (by decide)

/-! ## MediaComposer theorems -/

theorem truthyShot_shotOrEmpty {o : Option String} (h : truthyShot o = true) :
    shotOrEmpty o ≠ "" := by
  cases o with
  | none => simp [truthyShot] at h
  | some s =>
    simp [truthyShot] at h
    simpa [shotOrEmpty] using h

/-- C4: the media composer never raises — every call returns a value, `None`
standing for total internal failure — and on an empty action-history list
with no extra screenshots it returns `None` without error (the `history[0]`
`IndexError` is swallowed by the `except` handler). -/
theorem C4_create_media_never_raises
    (history_list : AgentHistoryList) (screenshots_to_append : List String)
    (filename : String) (output_format : List String) (params : GIFParamsUpdate) :
    (∃ o, create_media_from_history_list history_list screenshots_to_append
        filename output_format params = .ok o)
      ∧ (∀ fn fmt p, create_media_from_history_list ⟨[]⟩ [] fn fmt p = .ok none) := by
  constructor
  · unfold create_media_from_history_list
    cases create_media_body history_list screenshots_to_append filename
        output_format params with
    | ok o => exact ⟨o, rfl⟩
    | error e => exact ⟨none, rfl⟩
  · intro fn fmt p
    rfl

/-- C8: a 3-entry history whose middle entry lacks a screenshot, with no
extra screenshots, composes exactly 3 frames — the title frame followed by
the step frames of entries 1 and 3 (the skipped entry contributes nothing,
and the step counter still names them 1 and 3). -/
theorem C8_three_entries_skip_middle (e1 e2 e3 : AgentHistoryItem) (title : String)
    (h1 : truthyShot e1.state.screenshot = true)
    (h2 : truthyShot e2.state.screenshot = false)
    (h3 : truthyShot e3.state.screenshot = true) :
    composed_frames title ⟨[e1, e2, e3]⟩ []
      = .ok [PImage.composedText title (shotOrEmpty e1.state.screenshot),
             stepImageOf 1 e1, stepImageOf 3 e3] := by
  have hshot : shotOrEmpty e1.state.screenshot ≠ "" := truthyShot_shotOrEmpty h1
  simp [composed_frames, create_frame, hshot, extraFrames, stepFrames, h1, h2, h3,
    bind, Except.bind, pure, Except.pure]

/-- Witness for C8 at concrete history entries. -/
theorem C8_three_entries_skip_middle_witness :
    composed_frames "Task Run"
        ⟨[{ state := { screenshot := some "s1" },
            model_output := some { next_goal := some "g1" }, result := [] },
          { state := { screenshot := none }, model_output := none, result := [] },
          { state := { screenshot := some "s3" }, model_output := none,
            result := [] }]⟩ []
      = .ok [PImage.composedText "Task Run" "s1",
             PImage.withOverlay (.decoded "s1") 1 "g1", PImage.decoded "s3"] :=
  C8_three_entries_skip_middle
    { state := { screenshot := some "s1" },
      model_output := some { next_goal := some "g1" }, result := [] }
    { state := { screenshot := none }, model_output := none, result := [] }
    { state := { screenshot := some "s3" }, model_output := none, result := [] }
    "Task Run" (by decide) (by decide) (by decide)

/-! ## Worker theorems -/

theorem create_media_shape (h : AgentHistoryList) (s : List String) (fn : String)
    (fmt : List String) (p : GIFParamsUpdate) (d : HistoryMedia)
    (hok : create_media_from_history_list h s fn fmt p = .ok (some d)) :
    ∃ g v, d = mkHistoryMedia g v := by
  unfold create_media_from_history_list at hok
  cases hb : create_media_body h s fn fmt p with
  | error e =>
    rw [hb] at hok
    simp at hok
  | ok o =>
    rw [hb] at hok
    have ho : o = some d := by simpa using hok
    subst ho
    unfold create_media_body at hb
    cases hcf : composed_frames (mergeParams p).title_text h s with
    | error e =>
      rw [hcf] at hb
      simp [bind, Except.bind] at hb
    | ok imgs =>
      rw [hcf] at hb
      simp only [bind, Except.bind] at hb
      cases imgs with
      | nil => simp at hb
      | cons i is =>
        by_cases hg : "gif" ∈ fmt
        · simp [hg, create_gif_from_images, Except.map] at hb
          exact ⟨_, _, hb.symm⟩
        · simp [hg] at hb
          exact ⟨_, _, hb.symm⟩

theorem run_ok_shape (env : RunEnv) (title filename : String)
    (bc : Option BrowserContext) (fresh : Nat) (out : BrowserAgentOutput)
    (hok : (BrowserAgent.run env title filename bc fresh).1 = .ok out) :
    ∃ d, create_history_media env title filename = .ok (some d)
      ∧ out.agent_history_gif_url = dictGet d "gif_url"
      ∧ out.agent_history_gif_video_url = dictGet d "gif_video_url"
      ∧ out.agent_history_video_recording_url = dictGet d "video_recording_url"
      ∧ out.image_url = dictGet d "screenshot_url"
      ∧ out.browser_context
          = some (bc.getD { id := fresh, browser := { id := fresh } }) := by
  unfold BrowserAgent.run at hok
  simp only [bind, Except.bind] at hok
  cases hm : create_history_media env title filename with
  | error e =>
    rw [hm] at hok
    simp at hok
  | ok m =>
    rw [hm] at hok
    cases he : lastResultError env.agent_history with
    | error e =>
      rw [he] at hok
      simp at hok
    | ok er =>
      rw [he] at hok
      cases m with
      | none => simp [optionalDictGet] at hok
      | some d =>
        simp only [optionalDictGet] at hok
        refine ⟨d, rfl, ?_⟩
        cases bc with
        | none =>
          simp at hok
          rw [← hok]
          simp
        | some c =>
          simp at hok
          rw [← hok]
          simp

/-- C1 (code bug): when the media composer fails (returns `None`), the Worker
does not degrade the media fields and return a result — the unguarded
`agent_history_media.get("gif_url")` raises `AttributeError`, which the
`except` handler re-raises, aborting the run.  Shown at a run whose step loop
completed with one screenshot-less entry, making the composer return `None`. -/
theorem C1_media_failure_aborts_run :
    create_history_media
        { agent_history := AgentHistoryList.mk
            [{ state := { screenshot := none }, model_output := none,
               result := [{ error := none }] }],
          cookie_file := none, final_result := some "done",
          media_screenshot := "shot", last_screenshot := "shot2" }
        "Task" "file" = .ok none
      ∧ (BrowserAgent.run
          { agent_history := AgentHistoryList.mk
              [{ state := { screenshot := none }, model_output := none,
                 result := [{ error := none }] }],
            cookie_file := none, final_result := some "done",
            media_screenshot := "shot", last_screenshot := "shot2" }
          "Task" "file" (some { id := 7, browser := { id := 7 } }) 0).1
        = .error .attributeError :=
  ⟨rfl, rfl⟩

/-- C2: every successful Worker run returns `None` in all four media URL
fields, because the composer's dictionary uses keys `gif`/`mp4` while the
Worker reads `gif_url`, `gif_video_url`, `video_recording_url` and
`screenshot_url`, which are never present. -/
theorem C2_media_urls_always_null (env : RunEnv) (title filename : String)
    (bc : Option BrowserContext) (fresh : Nat) (out : BrowserAgentOutput)
    (hok : (BrowserAgent.run env title filename bc fresh).1 = .ok out) :
    out.agent_history_gif_url = none ∧ out.agent_history_gif_video_url = none
      ∧ out.agent_history_video_recording_url = none ∧ out.image_url = none := by
  obtain ⟨d, hm, hg, hgv, hvr, hiu, _⟩ :=
    run_ok_shape env title filename bc fresh out hok
  have hshape : ∃ g v, d = mkHistoryMedia g v := by
    apply create_media_shape env.agent_history
      [encode_image_to_base64 env.media_screenshot] filename ["mp4", "gif"]
      { title_text := some title }
    exact hm
  obtain ⟨g, v, rfl⟩ := hshape
  refine ⟨?_, ?_, ?_, ?_⟩ <;>
    simp [hg, hgv, hvr, hiu, dictGet, mkHistoryMedia, List.lookup]

/-- Witness for C2: a successful run in which both the GIF and the MP4 file
were created, yet all four URL fields of the returned output are `None`. -/
theorem C2_media_urls_always_null_witness :
    create_history_media
        { agent_history := AgentHistoryList.mk
            [{ state := { screenshot := some "s1" }, model_output := none,
               result := [{ error := none }] }],
          cookie_file := none, final_result := some "done",
          media_screenshot := "shot", last_screenshot := "last" }
        "T" "f" = .ok (some (mkHistoryMedia (some "f.gif") (some "f.mp4")))
      ∧ (({ agent_history_gif_url := none, agent_history_gif_video_url := none,
            agent_history_video_recording_url := none, agent_cookies := none,
            image_url := none, message := some "done", error := none,
            browser_context := some { id := 5, browser := { id := 3 } },
            last_page_image := some "last" } : BrowserAgentOutput).agent_history_gif_url
              = none
          ∧ ({ agent_history_gif_url := none, agent_history_gif_video_url := none,
               agent_history_video_recording_url := none, agent_cookies := none,
               image_url := none, message := some "done", error := none,
               browser_context := some { id := 5, browser := { id := 3 } },
               last_page_image := some "last" } : BrowserAgentOutput).agent_history_gif_video_url
              = none
          ∧ ({ agent_history_gif_url := none, agent_history_gif_video_url := none,
               agent_history_video_recording_url := none, agent_cookies := none,
               image_url := none, message := some "done", error := none,
               browser_context := some { id := 5, browser := { id := 3 } },
               last_page_image := some "last" } : BrowserAgentOutput).agent_history_video_recording_url
              = none
          ∧ ({ agent_history_gif_url := none, agent_history_gif_video_url := none,
               agent_history_video_recording_url := none, agent_cookies := none,
               image_url := none, message := some "done", error := none,
               browser_context := some { id := 5, browser := { id := 3 } },
               last_page_image := some "last" } : BrowserAgentOutput).image_url
              = none) :=
  ⟨rfl,
    C2_media_urls_always_null
      { agent_history := AgentHistoryList.mk
          [{ state := { screenshot := some "s1" }, model_output := none,
             result := [{ error := none }] }],
        cookie_file := none, final_result := some "done",
        media_screenshot := "shot", last_screenshot := "last" }
      "T" "f" (some { id := 5, browser := { id := 3 } }) 0
      { agent_history_gif_url := none, agent_history_gif_video_url := none,
        agent_history_video_recording_url := none, agent_cookies := none,
        image_url := none, message := some "done", error := none,
        browser_context := some { id := 5, browser := { id := 3 } },
        last_page_image := some "last" }
      (by rfl)⟩

/-- C6: a Worker invoked without a session creates exactly one browser and one
page context; invoked with a session it creates none, and the session handle
in a successful result is the one passed in. -/
theorem C6_session_reuse (env : RunEnv) (title filename : String) (fresh : Nat) :
    ((BrowserAgent.run env title filename none fresh).2.browsers_created.length = 1
      ∧ (BrowserAgent.run env title filename none fresh).2.contexts_created.length = 1)
    ∧ ∀ c : BrowserContext,
        (BrowserAgent.run env title filename (some c) fresh).2.browsers_created = []
        ∧ (BrowserAgent.run env title filename (some c) fresh).2.contexts_created = []
        ∧ ∀ out, (BrowserAgent.run env title filename (some c) fresh).1 = .ok out →
            out.browser_context = some c := by
  refine ⟨⟨rfl, rfl⟩, ?_⟩
  intro c
  refine ⟨rfl, rfl, ?_⟩
  intro out hok
  obtain ⟨d, _, _, _, _, _, hbc⟩ :=
    run_ok_shape env title filename (some c) fresh out hok
  simpa using hbc

/-- Witness for C6: the successful run above hands back the exact session it
was given. -/
theorem C6_session_reuse_witness :
    ({ agent_history_gif_url := none, agent_history_gif_video_url := none,
       agent_history_video_recording_url := none, agent_cookies := none,
       image_url := none, message := some "done", error := none,
       browser_context := some { id := 5, browser := { id := 3 } },
       last_page_image := some "last" } : BrowserAgentOutput).browser_context
      = some { id := 5, browser := { id := 3 } } :=
  ((C6_session_reuse
      { agent_history := AgentHistoryList.mk
          [{ state := { screenshot := some "s1" }, model_output := none,
             result := [{ error := none }] }],
        cookie_file := none, final_result := some "done",
        media_screenshot := "shot", last_screenshot := "last" }
      "T" "f" 0).2 { id := 5, browser := { id := 3 } }).2.2
    { agent_history_gif_url := none, agent_history_gif_video_url := none,
      agent_history_video_recording_url := none, agent_cookies := none,
      image_url := none, message := some "done", error := none,
      browser_context := some { id := 5, browser := { id := 3 } },
      last_page_image := some "last" }
    (by rfl)

/-! ## Supervisor theorems -/

/-- C5: on a `FINISH` routing response the supervisor always transitions to
the terminal state, regardless of a session's presence; a present session
gets exactly one close attempt, within a `try/except` that logs a failure and
swallows it (the function still returns the `END` command). -/
theorem C5_finish_always_terminates (oracle : RouterOracle) (close_env : CloseEnv)
    (state : BrowserState) (hfin : oracle (routing_input state) = "FINISH") :
    (supervisor oracle close_env state).goto = .END
      ∧ (supervisor oracle close_env state).update_next = .END
      ∧ (supervisor oracle close_env state).context_close_calls
          = (match state.browser_context with | some _ => 1 | none => 0)
      ∧ (state.browser_context.isSome = true →
          (close_env.context_close_fails = true
              ∨ close_env.browser_close_fails = true) →
          (supervisor oracle close_env state).logs = ["Error closing browser"]) := by
  cases hbc : state.browser_context with
  | none =>
    refine ⟨?_, ?_, ?_, ?_⟩ <;> simp [supervisor, hfin, hbc]
  | some c =>
    refine ⟨?_, ?_, ?_, ?_⟩
    · simp [supervisor, hfin, hbc]
    · simp [supervisor, hfin, hbc]
    · simp [supervisor, hfin, hbc]
    · intro _ hfail
      rcases hfail with h | h
      · simp [supervisor, hfin, hbc, h]
      · cases h2 : close_env.context_close_fails <;>
          simp [supervisor, hfin, hbc, h, h2]

/-- Witness for C5: a concrete `FINISH` run with a session whose context
close raises. -/
theorem C5_finish_always_terminates_witness :
    (supervisor (fun _ => "FINISH")
        { context_close_fails := true, browser_close_fails := false }
        { messages := [], browser_context := some { id := 1, browser := { id := 1 } },
          image := none, title := "t", prompt := "p",
          authentication_instruction := "", act_instruction := "", next := "" }).goto
      = .END :=
  (C5_finish_always_terminates (fun _ => "FINISH")
    { context_close_fails := true, browser_close_fails := false }
    { messages := [], browser_context := some { id := 1, browser := { id := 1 } },
      image := none, title := "t", prompt := "p",
      authentication_instruction := "", act_instruction := "", next := "" }
    (by rfl)).1

/-- Counterexample to C3 as stated: at the out-of-enum routing value
`"noop"`, the supervisor neither treats the response as fatal (it returns a
command routing to the nonexistent node `"noop"`, not to the terminal state)
nor logs anything — its log list is empty. -/
theorem C3_counterexample :
    ("noop" ∉ routerOptions)
      ∧ (supervisor (fun _ => "noop")
          { context_close_fails := false, browser_close_fails := false }
          { messages := [], browser_context := some { id := 1, browser := { id := 1 } },
            image := none, title := "t", prompt := "p",
            authentication_instruction := "", act_instruction := "", next := "" }).goto
          = .node "noop"
      ∧ (supervisor (fun _ => "noop")
          { context_close_fails := false, browser_close_fails := false }
          { messages := [], browser_context := some { id := 1, browser := { id := 1 } },
            image := none, title := "t", prompt := "p",
            authentication_instruction := "", act_instruction := "", next := "" }).goto
          ≠ .END
      ∧ (supervisor (fun _ => "noop")
          { context_close_fails := false, browser_close_fails := false }
          { messages := [], browser_context := some { id := 1, browser := { id := 1 } },
            image := none, title := "t", prompt := "p",
            authentication_instruction := "", act_instruction := "", next := "" }).logs
          = [] := by
  refine ⟨by decide, rfl, by decide, rfl⟩

/-- C3 (amended): the supervisor performs no validation of the routing value:
an out-of-enum response is forwarded unchanged as the goto target and stored
in `next`, with no log record and no cleanup; the run can only abort later,
when the graph engine fails to resolve the node. -/
theorem C3_out_of_enum_forwarded (oracle : RouterOracle) (close_env : CloseEnv)
    (state : BrowserState)
    (hbad : oracle (routing_input state) ∉ routerOptions) :
    (supervisor oracle close_env state).goto = .node (oracle (routing_input state))
      ∧ (supervisor oracle close_env state).update_next
          = .node (oracle (routing_input state))
      ∧ (supervisor oracle close_env state).logs = []
      ∧ (supervisor oracle close_env state).context_close_calls = 0 := by
  have hne : oracle (routing_input state) ≠ "FINISH" := by
    intro h
    exact hbad (by rw [h]; decide)
  refine ⟨?_, ?_, ?_, ?_⟩ <;> simp [supervisor, hne]

/-- Witness for the amended C3 at the routing value `"noop"`. -/
theorem C3_out_of_enum_forwarded_witness :
    (supervisor (fun _ => "noop")
        { context_close_fails := false, browser_close_fails := false }
        { messages := [], browser_context := none,
          image := none, title := "t", prompt := "p",
          authentication_instruction := "", act_instruction := "", next := "" }).goto
      = .node "noop" :=
  (C3_out_of_enum_forwarded (fun _ => "noop")
    { context_close_fails := false, browser_close_fails := false }
    { messages := [], browser_context := none,
      image := none, title := "t", prompt := "p",
      authentication_instruction := "", act_instruction := "", next := "" }
    (by decide)).1

/-- C10: two session states agreeing on the conversation present identical
input to the routing capability — the fixed system prompt plus the
conversation — so the routing decision and the resulting command agree on
any oracle, independently of `browser_context`, `next`, the goal fields and
the instructions. -/
theorem C10_routing_depends_only_on_messages (s1 s2 : BrowserState)
    (hmsg : s1.messages = s2.messages) :
    routing_input s1 = routing_input s2
      ∧ (∀ oracle : RouterOracle,
          oracle (routing_input s1) = oracle (routing_input s2))
      ∧ (∀ (oracle : RouterOracle) (close_env : CloseEnv),
          (supervisor oracle close_env s1).update_next
            = (supervisor oracle close_env s2).update_next) := by
  have hin : routing_input s1 = routing_input s2 := by
    simp [routing_input, hmsg]
  refine ⟨hin, fun oracle => by rw [hin], ?_⟩
  intro oracle close_env
  simp only [supervisor, hin]
  by_cases hfin : oracle (routing_input s2) = "FINISH"
  · cases s1.browser_context <;> cases s2.browser_context <;>
      simp [hfin]
  · simp [hfin]

/-- Witness for C10: two states equal in conversation but different in
session handle, routing memo and goal fields produce the same routing
input. -/
theorem C10_routing_depends_only_on_messages_witness :
    routing_input
        { messages := [{ role := "user", content := "hi" }],
          browser_context := some { id := 4, browser := { id := 4 } },
          image := none, title := "a", prompt := "b",
          authentication_instruction := "c", act_instruction := "d",
          next := "act" }
      = routing_input
        { messages := [{ role := "user", content := "hi" }],
          browser_context := none, image := some "img", title := "x",
          prompt := "y", authentication_instruction := "z",
          act_instruction := "w", next := "FINISH" } :=
  (C10_routing_depends_only_on_messages
    { messages := [{ role := "user", content := "hi" }],
      browser_context := some { id := 4, browser := { id := 4 } },
      image := none, title := "a", prompt := "b",
      authentication_instruction := "c", act_instruction := "d", next := "act" }
    { messages := [{ role := "user", content := "hi" }],
      browser_context := none, image := some "img", title := "x",
      prompt := "y", authentication_instruction := "z", act_instruction := "w",
      next := "FINISH" }
    (by rfl)).1

/-! ## JSON round-trip theorems -/

theorem digitChar_isDigit {d : Nat} (h : d < 10) : (digitChar d).isDigit = true := by
  interval_cases d <;> decide

theorem digitVal_digitChar {d : Nat} (h : d < 10) : digitVal (digitChar d) = d := by
  interval_cases d <;> decide

theorem digitChar_ne_special {d : Nat} (h : d < 10) :
    digitChar d ≠ 'n' ∧ digitChar d ≠ 't' ∧ digitChar d ≠ 'f' ∧ digitChar d ≠ '"'
      ∧ digitChar d ≠ '[' ∧ digitChar d ≠ '\x7b' ∧ digitChar d ≠ '-'
      ∧ digitChar d ≠ ']' ∧ digitChar d ≠ ',' ∧ digitChar d ≠ '\x7d' := by
  interval_cases d <;> exact ⟨by decide, by decide, by decide, by decide, by decide,
    by decide, by decide, by decide, by decide, by decide⟩

theorem dumpNat_ne_nil (n : Nat) : dumpNat n ≠ [] := by
  unfold dumpNat
  split <;> simp

theorem dumpNat_digits (n : Nat) : ∀ c ∈ dumpNat n, c.isDigit = true := by
  induction n using Nat.strong_induction_on with
  | _ n ih =>
    unfold dumpNat
    split
    · next h =>
      intro c hc
      simp at hc
      subst hc
      exact digitChar_isDigit h
    · next h =>
      intro c hc
      rcases List.mem_append.mp hc with h1 | h1
      · exact ih (n / 10) (by omega) c h1
      · simp at h1
        subst h1
        exact digitChar_isDigit (by omega)

theorem dumpNat_head (n : Nat) : ∃ d t, d < 10 ∧ dumpNat n = digitChar d :: t := by
  induction n using Nat.strong_induction_on with
  | _ n ih =>
    unfold dumpNat
    split
    · next h => exact ⟨n, [], h, rfl⟩
    · next h =>
      obtain ⟨d, t, hd, ht⟩ := ih (n / 10) (by omega)
      exact ⟨d, t ++ [digitChar (n % 10)], hd, by rw [ht]; rfl⟩

theorem dumpNat_foldl (n : Nat) : ∀ acc : Nat,
    (dumpNat n).foldl (fun a c => a * 10 + digitVal c) acc
      = acc * 10 ^ (dumpNat n).length + n := by
  induction n using Nat.strong_induction_on with
  | _ n ih =>
    intro acc
    unfold dumpNat
    split
    · next h =>
      simp [digitVal_digitChar h]
    · next h =>
      rw [List.foldl_append, ih (n / 10) (by omega) acc]
      have hmod : digitVal (digitChar (n % 10)) = n % 10 :=
        digitVal_digitChar (by omega)
      have hdm : n / 10 * 10 + n % 10 = n := by omega
      have hlen : (dumpNat (n / 10) ++ [digitChar (n % 10)]).length
          = (dumpNat (n / 10)).length + 1 := by simp
      rw [hlen, pow_succ]
      simp only [List.foldl_cons, List.foldl_nil, hmod]
      calc (acc * 10 ^ (dumpNat (n / 10)).length + n / 10) * 10 + n % 10
          = acc * (10 ^ (dumpNat (n / 10)).length * 10)
              + (n / 10 * 10 + n % 10) := by ring
        _ = acc * (10 ^ (dumpNat (n / 10)).length * 10) + n := by rw [hdm]

theorem headNotDigit_nil : headNotDigit [] := by
  intro c h
  simp at h

theorem headNotDigit_cons {c : Char} {cs : List Char} (h : c.isDigit = false) :
    headNotDigit (c :: cs) := by
  intro c' h'
  simp at h'
  subst h'
  exact h

theorem takeWhile_append_all {p : Char → Bool} : ∀ l r : List Char,
    (∀ c ∈ l, p c = true) → (∀ c, r.head? = some c → p c = false) →
    (l ++ r).takeWhile p = l := by
  intro l
  induction l with
  | nil =>
    intro r _ hr
    cases r with
    | nil => rfl
    | cons c cs => simp [List.takeWhile_cons, hr c rfl]
  | cons a l ih =>
    intro r hl hr
    simp only [List.cons_append, List.takeWhile_cons, hl a (by simp), if_true]
    rw [ih r (fun c hc => hl c (by simp [hc])) hr]

theorem parseNat_dumpNat (m : Nat) (rest : List Char) (hrest : headNotDigit rest) :
    parseNat (dumpNat m ++ rest) = some (m, rest) := by
  have htw : (dumpNat m ++ rest).takeWhile (fun c => c.isDigit) = dumpNat m :=
    takeWhile_append_all _ _ (dumpNat_digits m) hrest
  unfold parseNat
  simp only [htw, dumpNat_ne_nil m, if_neg, List.drop_left]
  rw [dumpNat_foldl m 0]
  simp

theorem parseIntOpt_dumpInt (n : Int) (rest : List Char)
    (hrest : headNotDigit rest) :
    parseIntOpt (dumpInt n ++ rest) = some (.num n, rest) := by
  by_cases hneg : n < 0
  · have hdump : dumpInt n = '-' :: dumpNat (-n).toNat := by
      simp [dumpInt, hneg]
    rw [hdump, List.cons_append]
    unfold parseIntOpt
    simp only [List.head?_cons, if_pos rfl, List.tail_cons, reduceIte]
    rw [parseNat_dumpNat _ rest hrest]
    have hval : -(((-n).toNat : Int)) = n := by omega
    show some (JVal.num (-(((-n).toNat : Nat) : Int)), rest) = some (JVal.num n, rest)
    rw [hval]
  · have hdump : dumpInt n = dumpNat n.toNat := by
      simp [dumpInt, hneg]
    obtain ⟨d, t, hd, ht⟩ := dumpNat_head n.toNat
    have hne := digitChar_ne_special hd
    have hhead : (dumpInt n ++ rest).head? = some (digitChar d) := by
      rw [hdump, ht]
      rfl
    unfold parseIntOpt
    rw [hhead]
    have hcond : ¬ (some (digitChar d) = some '-') := by
      simp [hne.2.2.2.2.2.2.1]
    rw [if_neg hcond, hdump]
    rw [parseNat_dumpNat _ rest hrest]
    have hval : ((n.toNat : Nat) : Int) = n := by omega
    simp [hval]

theorem parseStrAux_escape : ∀ l rest : List Char,
    parseStrAux (escapeChars l ++ ('"' :: rest)) = some (l, rest) := by
  intro l
  induction l with
  | nil =>
    intro rest
    rw [show escapeChars [] = [] from rfl, List.nil_append]
    unfold parseStrAux
    simp
  | cons c cs ih =>
    intro rest
    by_cases hc : c = '"' ∨ c = '\\'
    · have hesc : escapeChars (c :: cs) = '\\' :: c :: escapeChars cs := by
        simp [escapeChars, escChar, hc]
      rw [hesc]
      simp only [List.cons_append]
      unfold parseStrAux
      simp [hc, ih rest]
    · push_neg at hc
      have hesc : escapeChars (c :: cs) = c :: escapeChars cs := by
        simp [escapeChars, escChar, hc.1, hc.2]
      rw [hesc]
      simp only [List.cons_append]
      unfold parseStrAux
      simp [hc.1, hc.2, ih rest]

theorem dumpInt_head_shape (n : Int) : ∃ c t, dumpInt n = c :: t
    ∧ c ≠ 'n' ∧ c ≠ 't' ∧ c ≠ 'f' ∧ c ≠ '"' ∧ c ≠ '[' ∧ c ≠ '\x7b'
    ∧ c ≠ ']' ∧ c ≠ ',' ∧ c ≠ '\x7d' := by
  by_cases hneg : n < 0
  · refine ⟨'-', dumpNat (-n).toNat, by simp [dumpInt, hneg], ?_⟩
    refine ⟨by decide, by decide, by decide, by decide, by decide, by decide,
      by decide, by decide, by decide⟩
  · obtain ⟨d, t, hd, ht⟩ := dumpNat_head n.toNat
    have hne := digitChar_ne_special hd
    exact ⟨digitChar d, t, by simp [dumpInt, hneg, ht], hne.1, hne.2.1, hne.2.2.1,
      hne.2.2.2.1, hne.2.2.2.2.1, hne.2.2.2.2.2.1, hne.2.2.2.2.2.2.2.1,
      hne.2.2.2.2.2.2.2.2.1, hne.2.2.2.2.2.2.2.2.2⟩

theorem dumpVal_shape (v : JVal) : ∃ c t, dumpVal v = c :: t
    ∧ c ≠ ']' ∧ c ≠ ',' ∧ c ≠ '\x7d' := by
  cases v with
  | num n =>
    obtain ⟨c, t, hct, _, _, _, _, _, _, h7, h8, h9⟩ := dumpInt_head_shape n
    exact ⟨c, t, by simp [dumpVal, hct], h7, h8, h9⟩
  | null => refine ⟨'n', _, rfl, ?_, ?_, ?_⟩ <;> decide
  | bool b =>
    cases b with
    | true => refine ⟨'t', _, rfl, ?_, ?_, ?_⟩ <;> decide
    | false => refine ⟨'f', _, rfl, ?_, ?_, ?_⟩ <;> decide
  | str s => refine ⟨'"', _, rfl, ?_, ?_, ?_⟩ <;> decide
  | arr xs => refine ⟨'[', _, rfl, ?_, ?_, ?_⟩ <;> decide
  | obj xs => refine ⟨'\x7b', _, rfl, ?_, ?_, ?_⟩ <;> decide

theorem dumpVal_ne_nil (v : JVal) : dumpVal v ≠ [] := by
  obtain ⟨c, t, hct, _⟩ := dumpVal_shape v
  simp [hct]

theorem headNotDigit_arrSep (tl : JArr) (rest : List Char) :
    headNotDigit (dumpArrTail tl ++ (']' :: rest)) := by
  cases tl with
  | nil =>
    intro c h
    simp [dumpArrTail] at h
    subst h
    decide
  | cons v tl2 =>
    intro c h
    simp [dumpArrTail] at h
    subst h
    decide

theorem headNotDigit_objSep (tl : JObj) (rest : List Char) :
    headNotDigit (dumpObjTail tl ++ ('\x7d' :: rest)) := by
  cases tl with
  | nil =>
    intro c h
    simp [dumpObjTail] at h
    subst h
    decide
  | cons k v tl2 =>
    intro c h
    simp [dumpObjTail] at h
    subst h
    decide

mutual
theorem sizeV_le (v : JVal) : sizeV v ≤ (dumpVal v).length := by
  cases v with
  | null => simp [sizeV, dumpVal]
  | bool b => cases b <;> simp [sizeV, dumpVal]
  | num n =>
    obtain ⟨c, t, hct, _⟩ := dumpInt_head_shape n
    simp [sizeV, dumpVal, hct]
  | str s => simp [sizeV, dumpVal, dumpStr]
  | arr xs =>
    have h := sizeA_le_body xs
    simp only [sizeV, dumpVal, List.length_cons, List.length_append,
      List.length_cons, List.length_nil]
    omega
  | obj xs =>
    have h := sizeO_le_body xs
    simp only [sizeV, dumpVal, List.length_cons, List.length_append,
      List.length_cons, List.length_nil]
    omega

theorem sizeA_le_body (xs : JArr) : sizeA xs ≤ (dumpArrBody xs).length + 1 := by
  cases xs with
  | nil => simp [sizeA, dumpArrBody]
  | cons v tl =>
    have h1 := sizeV_le v
    have h2 := sizeA_le_tail tl
    have h3 : 1 ≤ (dumpVal v).length := by
      obtain ⟨c, t, hct, _⟩ := dumpVal_shape v
      simp [hct]
    simp only [sizeA, dumpArrBody, List.length_append]
    omega

theorem sizeA_le_tail (xs : JArr) : sizeA xs ≤ (dumpArrTail xs).length + 1 := by
  cases xs with
  | nil => simp [sizeA, dumpArrTail]
  | cons v tl =>
    have h1 := sizeV_le v
    have h2 := sizeA_le_tail tl
    simp only [sizeA, dumpArrTail, List.length_cons, List.length_append]
    omega

theorem sizeO_le_body (xs : JObj) : sizeO xs ≤ (dumpObjBody xs).length + 1 := by
  cases xs with
  | nil => simp [sizeO, dumpObjBody]
  | cons k v tl =>
    have h1 := sizeV_le v
    have h2 := sizeO_le_tail tl
    have h3 : 1 ≤ (dumpStr k).length := by simp [dumpStr]
    simp only [sizeO, dumpObjBody, List.length_append, List.length_cons]
    omega

theorem sizeO_le_tail (xs : JObj) : sizeO xs ≤ (dumpObjTail xs).length + 1 := by
  cases xs with
  | nil => simp [sizeO, dumpObjTail]
  | cons k v tl =>
    have h1 := sizeV_le v
    have h2 := sizeO_le_tail tl
    simp only [sizeO, dumpObjTail, List.length_cons, List.length_append]
    omega
end

mutual
theorem parseVal_dumpVal (v : JVal) : ∀ (rest : List Char) (fuel : Nat),
    sizeV v ≤ fuel → headNotDigit rest →
    parseVal fuel (dumpVal v ++ rest) = some (v, rest) := by
  cases v with
  | null =>
    intro rest fuel hfuel _
    cases fuel with
    | zero => simp [sizeV] at hfuel
    | succ f => simp [parseVal, dumpVal]
  | bool b =>
    intro rest fuel hfuel _
    cases fuel with
    | zero => simp [sizeV] at hfuel
    | succ f => cases b <;> simp [parseVal, dumpVal]
  | num n =>
    intro rest fuel hfuel hrest
    cases fuel with
    | zero => simp [sizeV] at hfuel
    | succ f =>
      obtain ⟨c, t, hct, h1, h2, h3, h4, h5, h6, _, _, _⟩ := dumpInt_head_shape n
      have hdv : dumpVal (.num n) = c :: t := by simp [dumpVal, hct]
      rw [hdv, List.cons_append]
      have hred : parseVal (f+1) (c :: (t ++ rest)) = parseIntOpt (c :: (t ++ rest)) := by
        simp [parseVal, h1, h2, h3, h4, h5, h6]
      rw [hred, ← List.cons_append, ← hct]
      exact parseIntOpt_dumpInt n rest hrest
  | str s =>
    intro rest fuel hfuel _
    cases fuel with
    | zero => simp [sizeV] at hfuel
    | succ f =>
      have hdv : dumpVal (.str s) = '"' :: (escapeChars s.data ++ ['"']) := rfl
      have hre : (escapeChars s.data ++ ['"']) ++ rest
          = escapeChars s.data ++ ('"' :: rest) := by simp
      rw [hdv, List.cons_append, hre]
      simp [parseVal, parseStrAux_escape]
  | arr xs =>
    intro rest fuel hfuel _
    cases fuel with
    | zero => simp [sizeV] at hfuel
    | succ f =>
      have hxs : sizeA xs ≤ f := by
        simp [sizeV] at hfuel
        omega
      have hdv : dumpVal (.arr xs) = '[' :: (dumpArrBody xs ++ [']']) := rfl
      have hre : (dumpArrBody xs ++ [']']) ++ rest
          = dumpArrBody xs ++ (']' :: rest) := by simp
      rw [hdv, List.cons_append, hre]
      simp [parseVal, parseArrBody_dump xs rest f hxs]
  | obj xs =>
    intro rest fuel hfuel _
    cases fuel with
    | zero => simp [sizeV] at hfuel
    | succ f =>
      have hxs : sizeO xs ≤ f := by
        simp [sizeV] at hfuel
        omega
      have hdv : dumpVal (.obj xs) = '\x7b' :: (dumpObjBody xs ++ ['\x7d']) := rfl
      have hre : (dumpObjBody xs ++ ['\x7d']) ++ rest
          = dumpObjBody xs ++ ('\x7d' :: rest) := by simp
      rw [hdv, List.cons_append, hre]
      simp [parseVal, parseObjBody_dump xs rest f hxs]

theorem parseArrBody_dump (xs : JArr) : ∀ (rest : List Char) (fuel : Nat),
    sizeA xs ≤ fuel →
    parseArrBody fuel (dumpArrBody xs ++ (']' :: rest)) = some (xs, rest) := by
  cases xs with
  | nil =>
    intro rest fuel hf
    cases fuel with
    | zero => simp [sizeA] at hf
    | succ f => simp [parseArrBody, dumpArrBody]
  | cons v tl =>
    intro rest fuel hf
    cases fuel with
    | zero => simp [sizeA] at hf
    | succ f =>
      have hv : sizeV v ≤ f := by
        simp [sizeA] at hf
        omega
      have htl : sizeA tl ≤ f := by
        simp [sizeA] at hf
        omega
      obtain ⟨c, t, hct, hc1, _, _⟩ := dumpVal_shape v
      have hinput : dumpArrBody (.cons v tl) ++ (']' :: rest)
          = dumpVal v ++ (dumpArrTail tl ++ (']' :: rest)) := by
        simp [dumpArrBody]
      rw [hinput]
      have hhead : (dumpVal v ++ (dumpArrTail tl ++ (']' :: rest))).head? = some c := by
        rw [hct]
        rfl
      simp [parseArrBody, hhead, hc1,
        parseVal_dumpVal v (dumpArrTail tl ++ (']' :: rest)) f hv
          (headNotDigit_arrSep tl rest),
        parseArrTail_dump tl rest f htl]

theorem parseArrTail_dump (xs : JArr) : ∀ (rest : List Char) (fuel : Nat),
    sizeA xs ≤ fuel →
    parseArrTail fuel (dumpArrTail xs ++ (']' :: rest)) = some (xs, rest) := by
  cases xs with
  | nil =>
    intro rest fuel hf
    cases fuel with
    | zero => simp [sizeA] at hf
    | succ f => simp [parseArrTail, dumpArrTail]
  | cons v tl =>
    intro rest fuel hf
    cases fuel with
    | zero => simp [sizeA] at hf
    | succ f =>
      have hv : sizeV v ≤ f := by
        simp [sizeA] at hf
        omega
      have htl : sizeA tl ≤ f := by
        simp [sizeA] at hf
        omega
      have hinput : dumpArrTail (.cons v tl) ++ (']' :: rest)
          = ',' :: ' ' :: (dumpVal v ++ (dumpArrTail tl ++ (']' :: rest))) := by
        simp [dumpArrTail]
      rw [hinput]
      simp [parseArrTail,
        parseVal_dumpVal v (dumpArrTail tl ++ (']' :: rest)) f hv
          (headNotDigit_arrSep tl rest),
        parseArrTail_dump tl rest f htl]

theorem parseObjBody_dump (xs : JObj) : ∀ (rest : List Char) (fuel : Nat),
    sizeO xs ≤ fuel →
    parseObjBody fuel (dumpObjBody xs ++ ('\x7d' :: rest)) = some (xs, rest) := by
  cases xs with
  | nil =>
    intro rest fuel hf
    cases fuel with
    | zero => simp [sizeO] at hf
    | succ f => simp [parseObjBody, dumpObjBody]
  | cons k v tl =>
    intro rest fuel hf
    cases fuel with
    | zero => simp [sizeO] at hf
    | succ f =>
      have hv : sizeV v ≤ f := by
        simp [sizeO] at hf
        omega
      have htl : sizeO tl ≤ f := by
        simp [sizeO] at hf
        omega
      have hinput : dumpObjBody (.cons k v tl) ++ ('\x7d' :: rest)
          = '"' :: (escapeChars k.data
              ++ ('"' :: (':' :: ' ' :: (dumpVal v
                ++ (dumpObjTail tl ++ ('\x7d' :: rest)))))) := by
        simp [dumpObjBody, dumpStr]
      rw [hinput]
      simp [parseObjBody, parseKeyStr, parseStrAux_escape, parseColonSp,
        parseVal_dumpVal v (dumpObjTail tl ++ ('\x7d' :: rest)) f hv
          (headNotDigit_objSep tl rest),
        parseObjTail_dump tl rest f htl]

theorem parseObjTail_dump (xs : JObj) : ∀ (rest : List Char) (fuel : Nat),
    sizeO xs ≤ fuel →
    parseObjTail fuel (dumpObjTail xs ++ ('\x7d' :: rest)) = some (xs, rest) := by
  cases xs with
  | nil =>
    intro rest fuel hf
    cases fuel with
    | zero => simp [sizeO] at hf
    | succ f => simp [parseObjTail, dumpObjTail]
  | cons k v tl =>
    intro rest fuel hf
    cases fuel with
    | zero => simp [sizeO] at hf
    | succ f =>
      have hv : sizeV v ≤ f := by
        simp [sizeO] at hf
        omega
      have htl : sizeO tl ≤ f := by
        simp [sizeO] at hf
        omega
      have hinput : dumpObjTail (.cons k v tl) ++ ('\x7d' :: rest)
          = ',' :: ' ' :: ('"' :: (escapeChars k.data
              ++ ('"' :: (':' :: ' ' :: (dumpVal v
                ++ (dumpObjTail tl ++ ('\x7d' :: rest))))))) := by
        simp [dumpObjTail, dumpStr]
      rw [hinput]
      simp [parseObjTail, parseKeyStr, parseStrAux_escape, parseColonSp,
        parseVal_dumpVal v (dumpObjTail tl ++ ('\x7d' :: rest)) f hv
          (headNotDigit_objSep tl rest),
        parseObjTail_dump tl rest f htl]
end

theorem loads_dumps (v : JVal) : loads (dumps v) = some v := by
  unfold loads dumps
  show (match parseVal ((dumpVal v).length + 1) (dumpVal v) with
    | some (w, []) => some w
    | _ => none) = some v
  have hlen : sizeV v ≤ (dumpVal v).length + 1 :=
    le_trans (sizeV_le v) (by omega)
  have h := parseVal_dumpVal v [] ((dumpVal v).length + 1) hlen headNotDigit_nil
  rw [List.append_nil] at h
  rw [h]

/-- C9: writing a list of cookie objects to the cookie file with
`write_data_to_file` and reading it back with `read_json_file` yields an
equal list, element order preserved (serialisation and parsing are mutually
inverse on the JSON values the repository writes; numbers are modelled as
integers, floats being outside the embedding). -/
theorem C9_cookie_roundtrip (cookies : JArr) (path : String) (fs : FileSys) :
    read_json_file path (write_data_to_file path (.arr cookies) fs)
      = some (.arr cookies) := by
  unfold read_json_file write_data_to_file
  simp [loads_dumps]

end WebExplorer
